import Mathlib

/-!
Verification of kanata-ime-observer (Rust) against its natural-language
specification, via a shallow embedding of the relevant source functions.

Conventions of the embedding:
* Rust `String` becomes Lean `String`; Rust byte-equality of strings is
  Lean `String` equality.
* `std::sync::mpsc` channel reads are modelled by an explicit list of the
  values the channel delivers, in order; an exhausted list models a closed
  (disconnected) channel for receivers that treat closure as an error.
* `HashMap<String, V>` is modelled as an association list with
  lookup/insert semantics matching `HashMap::{get, insert}` (insert
  returns the previous value when the key was present).  Claims only use
  lookups and value multisets, which are iteration-order independent.
* Fallible Rust functions returning `Result<T, AppError>` become
  `Except AppError T`.
-/

namespace KanataImeObserver

/-- Embeds `AppError` from src/error.rs.  Payloads that are opaque foreign
error objects (`std::io::Error`, `serde_json::Error`) are modelled by their
message string. -/
inductive AppError where
  | DbusError (msg : String)
  | DbusParseError (msg : String)
  | WinApiError (msg : String)
  | MacApiError (msg : String)
  | InnerReceiverError (receiver_name : String)
  | InnerSenderError (sender_name : String)
  | SerdeError (msg : String)
  | IoError (msg : String)
  | CustomError (msg : String)
  | ArgError (msg : String)
  | KanataMessageError
  | CaughtFatalError (location : String)
deriving DecidableEq, Repr

/-- Embeds `Message` from src/lib.rs lines 37-40, exactly as declared there:
the enum has two variants, `GetImeStatus` and `CaughtFatalError`. -/
inductive Message where
  | GetImeStatus
  | CaughtFatalError
deriving DecidableEq, Repr

/-- Embeds the receiver facade `receive` shared verbatim by
`IbusImeReceiver::receive` (src/ibus.rs 125-144),
`FcitxImeReceiver::receive` (src/fcitx.rs 159-178),
`MacImeReceiver::receive` (src/mac.rs 170-189) and
`WindowsImeOnOffReceiver::receive` (src/win_onoff.rs 358-377).

State `pre_ime_status` is the `Option<String>` field of the receiver;
the list argument is the sequence of tokens the backend's internal
single-slot channel delivers to `inner_receiver.recv()`; an empty list
models the channel having been closed, which the source maps to
`AppError::InnerReceiverError`.  On success the source returns the token
and has set `pre_ime_status` to it; we return the token, the new memory,
and the unread remainder of the channel. -/
def receive (receiver_name : String) (pre_ime_status : Option String) :
    List String → Except AppError (String × Option String × List String)
  | [] => .error (.InnerReceiverError receiver_name)
  | new_ime_status :: rest =>
    match pre_ime_status with
    | none => .ok (new_ime_status, some new_ime_status, rest)
    | some pre =>
      if pre = new_ime_status then
        receive receiver_name (some pre) rest
      else
        .ok (new_ime_status, some new_ime_status, rest)

/-- The full sequence of tokens successive `receive` calls return while the
channel delivers the given token list (the caller loops on `receive` until
it errors; see `write_to_kanata` in src/bin/kanata_ime_observer.rs). -/
def receiveAll (pre_ime_status : Option String) : List String → List String
  | [] => []
  | new_ime_status :: rest =>
    match pre_ime_status with
    | none => new_ime_status :: receiveAll (some new_ime_status) rest
    | some pre =>
      if pre = new_ime_status then
        receiveAll (some pre) rest
      else
        new_ime_status :: receiveAll (some new_ime_status) rest

/-- `receiveAll` is the trace of iterated `receive` calls. -/
theorem receiveAll_eq_receive (name : String) (pre : Option String)
    (s : List String) :
    receiveAll pre s =
      (match receive name pre s with
       | .error _ => []
       | .ok (t, pre2, rest) => t :: receiveAll pre2 rest) := by
  induction s generalizing pre with
  | nil => cases pre <;> rfl
  | cons t ts ih =>
    cases pre with
    | none => rfl
    | some p =>
      by_cases hpt : p = t
      · simp only [receiveAll, receive, if_pos hpt]
        exact ih (some p)
      · simp only [receiveAll, receive, if_neg hpt]

/-- With a remembered token `p`, `receive` drops the tokens equal to `p`
and acts on the rest of the channel. -/
theorem receive_dropWhile (name : String) (p : String) (s : List String) :
    receive name (some p) s =
      (match s.dropWhile (fun t => p == t) with
       | [] => .error (.InnerReceiverError name)
       | t :: ts => .ok (t, some t, ts)) := by
  induction s with
  | nil => rfl
  | cons t ts ih =>
    by_cases hpt : p = t
    · have hb : (p == t) = true := by simp [hpt]
      simp only [receive, if_pos hpt, List.dropWhile_cons, hb, if_true]
      exact ih
    · have hb : (p == t) = false := by simp [hpt]
      simp only [receive, if_neg hpt, List.dropWhile_cons, hb]
      rfl

/-- Every token emitted after memory `p` is distinct from `p` and from its
successor in the emitted sequence. -/
theorem chain_receiveAll (s : List String) :
    ∀ p : String, List.Chain (fun a b => a ≠ b) p (receiveAll (some p) s) := by
  induction s with
  | nil => intro p; exact List.Chain.nil
  | cons t ts ih =>
    intro p
    by_cases hpt : p = t
    · simp only [receiveAll, if_pos hpt]
      exact ih p
    · simp only [receiveAll, if_neg hpt]
      exact List.Chain.cons hpt (ih t)

/-- C1.  Edge-detector contract of the receiver facade: the first call to
`receive` returns the first token delivered by the backend channel and
stores it as the previous-status memory; a call with memory `p` skips the
tokens byte-equal to `p` and returns the first distinct one, storing it as
the new memory; consequently the trace of returned values contains no two
consecutive equal tokens. -/
theorem receive_edge_detector_contract :
    (∀ (name t : String) (ts : List String),
      receive name none (t :: ts) = .ok (t, some t, ts)) ∧
    (∀ (name p : String) (s : List String),
      receive name (some p) s =
        (match s.dropWhile (fun t => p == t) with
         | [] => .error (.InnerReceiverError name)
         | t :: ts => .ok (t, some t, ts))) ∧
    (∀ s : List String, (receiveAll none s).Chain' (fun a b => a ≠ b)) := by
  refine ⟨fun name t ts => rfl, receive_dropWhile, fun s => ?_⟩
  cases s with
  | nil => exact List.chain'_nil
  | cons t ts =>
    show List.Chain (fun a b => a ≠ b) t (receiveAll (some t) ts)
    exact chain_receiveAll ts t

/-- C3.  The wakeup-channel message type as declared in src/lib.rs has
exactly the two kinds `GetImeStatus` and `CaughtFatalError`: there is no
third kind, and in particular no kind carrying an IME-status token, even
though `dbus_main_loop` (src/ibus.rs line 38) and the ibus query-worker
(src/ibus.rs line 98) require a `Message::ImeStatus(engine_name)` variant. -/
theorem message_has_exactly_two_kinds :
    ∀ m : Message, m = Message.GetImeStatus ∨ m = Message.CaughtFatalError := by
  intro m
  cases m
  · exact Or.inl rfl
  · exact Or.inr rfl

/-- Embeds `KanataClientMessage` from src/kanata_tcp_types.rs lines 9-13. -/
inductive KanataClientMessage where
  | ChangeLayer (new : String)
  | ReloadNum (index : Nat)
deriving DecidableEq, Repr

/-- Embeds `Command` from src/lib.rs lines 150-155 (the two `HashMap`s as
association lists). -/
inductive Command where
  | Config (config_map : List (String × Nat))
  | Layer (layer_map : List (String × String))
  | Log
deriving DecidableEq, Repr

/-- `HashMap::get` on the association-list model. -/
def mapGet {α : Type} : List (String × α) → String → Option α
  | [], _ => none
  | (k, v) :: rest, key => if k = key then some v else mapGet rest key

/-- One character of serde_json string escaping (`\x22`, `\x5c`, the short
control escapes, and `\u00..` for the remaining control characters, lower
case hex as serde_json emits). -/
def jsonEscapeChar (c : Char) : String :=
  if c = '"' then "\\\""
  else if c = '\\' then "\\\\"
  else if c = '\x08' then "\\b"
  else if c = '\x0c' then "\\f"
  else if c = '\n' then "\\n"
  else if c = '\r' then "\\r"
  else if c = '\t' then "\\t"
  else if c.toNat < 0x20 then
    "\\u00" ++ String.singleton (Nat.digitChar (c.toNat / 16)) ++
      String.singleton (Nat.digitChar (c.toNat % 16))
  else String.singleton c

/-- serde_json rendering of a Rust `String` as a JSON string body. -/
def jsonEscape (s : String) : String :=
  String.join (s.toList.map jsonEscapeChar)

/-- Models `serde_json::to_string` on `KanataClientMessage`: serde's
externally-tagged enum encoding of the two struct variants, numbers in
decimal, no whitespace, and no trailing newline. -/
def serializeKanataClientMessage : KanataClientMessage → String
  | .ChangeLayer new =>
    "\x7b\"ChangeLayer\":\x7b\"new\":\"" ++ jsonEscape new ++ "\"\x7d\x7d"
  | .ReloadNum index =>
    "\x7b\"ReloadNum\":\x7b\"index\":" ++ toString index ++ "\x7d\x7d"

/-- Embeds the per-token dispatch of `write_to_kanata`
(src/bin/kanata_ime_observer.rs lines 42-54): a config map maps a present
token to `ReloadNum`, a layer map to `ChangeLayer`, and absent tokens and
`Command::Log` produce no message. -/
def messageFor (command : Command) (ime_status : String) :
    Option KanataClientMessage :=
  match command with
  | .Config config_map =>
    (mapGet config_map ime_status).map (fun config_num => .ReloadNum config_num)
  | .Layer layer_map =>
    (mapGet layer_map ime_status).map (fun layer_name => .ChangeLayer layer_name)
  | .Log => none

/-- Embeds the write loop of `write_to_kanata`
(src/bin/kanata_ime_observer.rs lines 38-60): for each token returned by
`receive()` (the edge-detected trace of the raw backend tokens), the bytes
`serde_json::to_string(&msg)` are written to the TCP stream when the
command binding yields a message; the result is the whole byte sequence
the stream receives. -/
def write_to_kanata (command : Command) (raw_tokens : List String) : String :=
  String.join ((receiveAll none raw_tokens).filterMap
    (fun ime_status => (messageFor command ime_status).map
      serializeKanataClientMessage))

/-- C2 counterexample.  With config map `mozc-jp ↦ 0, xkb:us::eng ↦ 1` and
backend tokens `xkb:us::eng, xkb:us::eng, mozc-jp`, the stream receives the
two JSON objects with NO newline after either, so the claimed
newline-terminated byte sequence is not what is written. -/
theorem write_to_kanata_no_newline_counterexample :
    write_to_kanata
        (.Config [("mozc-jp", 0), ("xkb:us::eng", 1)])
        ["xkb:us::eng", "xkb:us::eng", "mozc-jp"] =
      "\x7b\"ReloadNum\":\x7b\"index\":1\x7d\x7d\x7b\"ReloadNum\":\x7b\"index\":0\x7d\x7d" ∧
    write_to_kanata
        (.Config [("mozc-jp", 0), ("xkb:us::eng", 1)])
        ["xkb:us::eng", "xkb:us::eng", "mozc-jp"] ≠
      "\x7b\"ReloadNum\":\x7b\"index\":1\x7d\x7d\n\x7b\"ReloadNum\":\x7b\"index\":0\x7d\x7d\n" := by
  constructor
  · rfl
  · decide

/-- C2 (amended).  Writer output bytes: a token mapped to index `i` by a
config map contributes exactly the bytes of the JSON object
`\x7b"ReloadNum":\x7b"index":i\x7d\x7d` and a token mapped to layer `l` by
a layer map exactly `\x7b"ChangeLayer":\x7b"new":"l"\x7d\x7d` — with no
trailing newline; tokens absent from the map and the log-only command
contribute no bytes; for the concrete config roundtrip the stream receives
exactly the two `ReloadNum` objects, unseparated. -/
theorem write_to_kanata_bytes :
    (∀ (config_map : List (String × Nat)) (t : String) (i : Nat),
      mapGet config_map t = some i →
        (messageFor (.Config config_map) t).map serializeKanataClientMessage =
          some ("\x7b\"ReloadNum\":\x7b\"index\":" ++ toString i ++ "\x7d\x7d")) ∧
    (∀ (layer_map : List (String × String)) (t l : String),
      mapGet layer_map t = some l →
        (messageFor (.Layer layer_map) t).map serializeKanataClientMessage =
          some ("\x7b\"ChangeLayer\":\x7b\"new\":\"" ++ jsonEscape l ++ "\"\x7d\x7d")) ∧
    (∀ (config_map : List (String × Nat)) (t : String),
      mapGet config_map t = none → messageFor (.Config config_map) t = none) ∧
    (∀ (layer_map : List (String × String)) (t : String),
      mapGet layer_map t = none → messageFor (.Layer layer_map) t = none) ∧
    (∀ t : String, messageFor .Log t = none) ∧
    write_to_kanata
        (.Config [("mozc-jp", 0), ("xkb:us::eng", 1)])
        ["xkb:us::eng", "xkb:us::eng", "mozc-jp"] =
      "\x7b\"ReloadNum\":\x7b\"index\":1\x7d\x7d\x7b\"ReloadNum\":\x7b\"index\":0\x7d\x7d" := by
  refine ⟨?_, ?_, ?_, ?_, fun t => rfl, rfl⟩
  · intro config_map t i h
    simp [messageFor, h, serializeKanataClientMessage]
  · intro layer_map t l h
    simp [messageFor, h, serializeKanataClientMessage]
  · intro config_map t h
    simp [messageFor, h]
  · intro layer_map t h
    simp [messageFor, h]

/-- C2 witness: the amended theorem applied at concrete inputs. -/
theorem write_to_kanata_bytes_witness :
    (messageFor (.Config [("mozc-jp", 0)]) "mozc-jp").map
        serializeKanataClientMessage =
      some "\x7b\"ReloadNum\":\x7b\"index\":0\x7d\x7d" ∧
    (messageFor (.Layer [("mozc-jp", "ja")]) "mozc-jp").map
        serializeKanataClientMessage =
      some "\x7b\"ChangeLayer\":\x7b\"new\":\"ja\"\x7d\x7d" ∧
    messageFor (.Config [("mozc-jp", 0)]) "ibus:en" = none ∧
    messageFor (.Layer [("mozc-jp", "ja")]) "ibus:en" = none := by
  refine ⟨?_, ?_, ?_, ?_⟩
  · exact write_to_kanata_bytes.1 [("mozc-jp", 0)] "mozc-jp" 0 (by decide)
  · exact write_to_kanata_bytes.2.1 [("mozc-jp", "ja")] "mozc-jp" "ja" (by decide)
  · exact write_to_kanata_bytes.2.2.1 [("mozc-jp", 0)] "ibus:en" (by decide)
  · exact write_to_kanata_bytes.2.2.2.1 [("mozc-jp", "ja")] "ibus:en" (by decide)

/-- Embeds the shared cell inside `FatalError` (src/lib.rs line 68:
`Arc<OnceCell<AppError>>`).  All clones of a `FatalError` hold the same
`Arc`, so the one value of this type is the state every clone observes. -/
abbrev FatalErrorCell := Option AppError

/-- Embeds `OnceCell::set`: succeeds (returning `true`) exactly when the
cell was empty; an already-set cell keeps its stored value. -/
def onceCellSet (cell : FatalErrorCell) (v : AppError) : FatalErrorCell × Bool :=
  match cell with
  | none => (some v, true)
  | some w => (some w, false)

/-- Embeds `FatalError::is_none` (src/lib.rs lines 74-76). -/
def fatalErrorIsNone (cell : FatalErrorCell) : Bool :=
  cell.isNone

/-- Embeds `catch_fatal_error` (src/lib.rs lines 120-127) acting on the
shared cell: the argument is the outcome of `fatal_error_receiver.recv()`
(`none` models a closed channel, in which case nothing happens).  Returns
the new cell state and the number of `error!("Caught the FatalError: ...")`
log lines emitted — one exactly when the `set` succeeded. -/
def catch_fatal_error (cell : FatalErrorCell) (received : Option AppError) :
    FatalErrorCell × Nat :=
  match received with
  | none => (cell, 0)
  | some app_err =>
    let (cell2, set_succeeded) := onceCellSet cell app_err
    (cell2, if set_succeeded then 1 else 0)

/-- A sequence of `catch_fatal_error` deliveries against the one shared
cell (any interleaving of concurrent publishers is some such sequence);
accumulates the total number of fatal log lines. -/
def catchAll (cell : FatalErrorCell) : List AppError → FatalErrorCell × Nat
  | [] => (cell, 0)
  | err :: rest =>
    let (cell2, logs) := catch_fatal_error cell (some err)
    let (cell3, logs2) := catchAll cell2 rest
    (cell3, logs + logs2)

/-- Once the cell holds a value, further deliveries never change it and
never log. -/
theorem catchAll_of_set (w : AppError) :
    ∀ errs : List AppError, catchAll (some w) errs = (some w, 0) := by
  intro errs
  induction errs with
  | nil => rfl
  | cons e rest ih =>
    simp [catchAll, catch_fatal_error, onceCellSet, ih]

/-- C4.  Single-assignment shared tripwire: `OnceCell::set` on a latched
cell keeps the stored value and reports failure; delivering any nonempty
error sequence to a fresh cell latches exactly the first error and emits
exactly one fatal log line (by the delivery whose `set` succeeded); after
any such sequence `is_none` answers `false` on the shared cell, hence on
every clone of the `FatalError`. -/
theorem fatal_error_single_assignment :
    (∀ (w v : AppError), onceCellSet (some w) v = (some w, false)) ∧
    (∀ (e : AppError) (errs : List AppError),
      catchAll none (e :: errs) = (some e, 1)) ∧
    (∀ (e : AppError) (errs : List AppError),
      fatalErrorIsNone (catchAll none (e :: errs)).1 = false) := by
  have hall : ∀ (e : AppError) (errs : List AppError),
      catchAll none (e :: errs) = (some e, 1) := by
    intro e errs
    simp [catchAll, catch_fatal_error, onceCellSet, catchAll_of_set]
  refine ⟨fun w v => rfl, hall, ?_⟩
  intro e errs
  rw [hall e errs]
  rfl

/-- The capacity of the fatal-error channel, from
`sync_channel(1)` in `initialize_app` (src/lib.rs line 56). -/
def fatalChannelCapacity : Nat := 1

/-- State of the bounded mpsc channel behind `FATAL_ERROR_SENDER`: either
the receiver was dropped, or the queue holds its pending values. -/
inductive ChannelState where
  | disconnected
  | live (pending : List AppError)
deriving DecidableEq, Repr

/-- The two failure kinds of `SyncSender::try_send`. -/
inductive TrySendKind where
  | full
  | disconnected
deriving DecidableEq, Repr

/-- Embeds `SyncSender::try_send` on the capacity-1 fatal channel: a
single non-blocking attempt that enqueues when a slot is free and
otherwise reports `Full` or `Disconnected`, leaving the queue unchanged. -/
def try_send (st : ChannelState) (err : AppError) :
    ChannelState × Option TrySendKind :=
  match st with
  | .disconnected => (.disconnected, some .disconnected)
  | .live pending =>
    if pending.length < fatalChannelCapacity then
      (.live (pending ++ [err]), none)
    else
      (.live pending, some .full)

/-- Log levels distinguished by the claims. -/
inductive LogLevel where
  | debug
  | error
deriving DecidableEq, Repr

/-- Embeds `send_fatal_error` (src/lib.rs lines 92-105).  The argument
mirrors `FATAL_ERROR_SENDER.get()` (`none` when the global cell was never
set).  Returns the channel state after the single `try_send` attempt and
the level of the log line emitted, if any: `Disconnected` logs at error
level, `Full` at debug level, an unset global sender at error level, and a
successful send logs nothing.  The function is total: it never returns an
error and never retries. -/
def send_fatal_error (sender : Option ChannelState) (err : AppError) :
    Option ChannelState × Option LogLevel :=
  match sender with
  | none => (none, some .error)
  | some st =>
    let (st2, failure) := try_send st err
    match failure with
    | none => (some st2, none)
    | some .disconnected => (some st2, some .error)
    | some .full => (some st2, some .debug)

/-- C5.  Publishing to the fatal-error channel never blocks:
`send_fatal_error` performs exactly one non-blocking `try_send` (the
resulting channel state is that of a single `try_send`, for every input
state); when the capacity-1 queue already holds an error the new error is
dropped — the queue is unchanged — and only a debug-level log is emitted;
a disconnected receiver is logged at error level with the queue unchanged;
a free slot enqueues the error with no log.  In no case is an error
returned: the codomain carries only the new state and an optional log. -/
theorem send_fatal_error_never_blocks :
    (∀ (st : ChannelState) (err : AppError),
      (send_fatal_error (some st) err).1 = some (try_send st err).1) ∧
    (∀ (pending_err err : AppError),
      send_fatal_error (some (.live [pending_err])) err =
        (some (.live [pending_err]), some .debug)) ∧
    (∀ err : AppError,
      send_fatal_error (some .disconnected) err =
        (some .disconnected, some .error)) ∧
    (∀ err : AppError,
      send_fatal_error (some (.live [])) err = (some (.live [err]), none)) := by
  refine ⟨?_, fun p err => rfl, fun err => rfl, fun err => rfl⟩
  intro st err
  cases st with
  | disconnected => rfl
  | live pending =>
    simp only [send_fatal_error, try_send]
    by_cases h : pending.length < fatalChannelCapacity
    · simp [h]
    · simp [h]

/-- The observable action a backend query-worker takes on one query
result: forward the token to the internal channel (`handle_try_send`),
publish the error to the fatal-error channel (`send_fatal_error`), or log
it at error level and continue (`error!`). -/
inductive WorkerEffect where
  | sendInner (ime_status : String)
  | publishFatal (err : AppError)
  | logNonFatal (err : AppError)
deriving DecidableEq, Repr

/-- Embeds `impl From<dbus::Error> for AppError` (src/error.rs lines
68-81): the D-Bus error's name and message joined by a colon. -/
def appErrorOfDbus (name message : String) : AppError :=
  .DbusError (name ++ ":" ++ message)

/-- Embeds the body of the fcitx query-worker loop
(src/fcitx.rs lines 131-146): the argument is the outcome of the
`CurrentInputMethod` method call on `org.fcitx.Fcitx.Controller1` (a D-Bus
error is its name/message pair).  `Ok` forwards the engine token to the
inner channel; `Err` calls `send_fatal_error(dbus_err.into())`. -/
def fcitxWorkerStep (method_result : Except (String × String) String) :
    WorkerEffect :=
  match method_result with
  | .ok ime_engine => .sendInner ime_engine
  | .error (name, message) => .publishFatal (appErrorOfDbus name message)

/-- C6 counterexample.  A transient D-Bus method error in the fcitx
query-worker (here a `NoReply` timeout from `CurrentInputMethod`) is
published to the fatal-error channel, and is not an error-level
log-and-continue. -/
theorem fcitx_dbus_error_escalates :
    fcitxWorkerStep
        (.error ("org.freedesktop.DBus.Error.NoReply", "Reply timeout")) =
      .publishFatal
        (.DbusError "org.freedesktop.DBus.Error.NoReply:Reply timeout") ∧
    fcitxWorkerStep
        (.error ("org.freedesktop.DBus.Error.NoReply", "Reply timeout")) ≠
      .logNonFatal
        (.DbusError "org.freedesktop.DBus.Error.NoReply:Reply timeout") := by
  exact ⟨rfl, by decide⟩

/-- C6 (amended).  Every D-Bus method error the fcitx query-worker
receives from the `CurrentInputMethod` call is escalated to the
fatal-error channel via `send_fatal_error` (converted through
`From<dbus::Error>`); a successful call forwards the returned engine
token to the internal channel. -/
theorem fcitx_worker_escalates_dbus_errors :
    (∀ name message : String,
      fcitxWorkerStep (.error (name, message)) =
        .publishFatal (appErrorOfDbus name message)) ∧
    (∀ ime_engine : String,
      fcitxWorkerStep (.ok ime_engine) = .sendInner ime_engine) :=
  ⟨fun name message => rfl, fun ime_engine => rfl⟩

/-- Embeds `KanataServerResponse` from src/kanata_tcp_types.rs lines 3-7. -/
structure KanataServerResponse where
  status : String
  msg : Option String
deriving DecidableEq, Repr

/-- One iteration's input to the `read_from_kanata` loop: what
`read_line` plus the serde parse produced.  `eof` is `read_line`
returning 0 bytes, `ioErr` is `read_line` returning an I/O error
(propagated by the `?` operator), and `line` carries the
`serde_json::from_str::<KanataServerResponse>` outcome for the line. -/
inductive ReadEvent where
  | eof
  | ioErr (e : String)
  | line (parsed : Option KanataServerResponse)
deriving DecidableEq, Repr

/-- Embeds one iteration of `read_from_kanata`
(src/bin/kanata_ime_observer.rs lines 71-94): `Except` error means the
function returns that error; `ok` carries the level of the log line the
iteration emitted, if any, and the loop continues. -/
def readStep : ReadEvent → Except AppError (Option LogLevel)
  | .eof => .error (.CustomError "Kanata Connection finished.")
  | .ioErr e => .error (.IoError e)
  | .line (some response) =>
    if response.status = "Ok" then .ok (some .debug)
    else if response.status = "Error" then
      .ok (if response.msg.isSome then some .debug else none)
    else .error .KanataMessageError
  | .line none => .ok (some .debug)

/-- Embeds `read_from_kanata` over the finite sequence of read events
that occur while `fatal_error.is_none()` holds; an exhausted event list
models the loop predicate observing the tripped fatal flag, after which
the source returns `CustomError("read_from_kanata: Caught the fatal
error.")`.  The source function returns an error on every path. -/
def read_from_kanata : List ReadEvent → AppError
  | [] => .CustomError "read_from_kanata: Caught the fatal error."
  | ev :: rest =>
    match readStep ev with
    | .error e => e
    | .ok _ => read_from_kanata rest

/-- C7 counterexample.  An I/O error from `read_line` also makes
`read_from_kanata` return an error — one produced neither by
end-of-file nor by an unrecognized status — so EOF and unknown status
are not the only error returns. -/
theorem read_from_kanata_io_error_counterexample :
    read_from_kanata [.ioErr "Connection reset by peer"] =
      .IoError "Connection reset by peer" ∧
    AppError.IoError "Connection reset by peer" ≠
      .CustomError "Kanata Connection finished." ∧
    AppError.IoError "Connection reset by peer" ≠ .KanataMessageError := by
  exact ⟨rfl, by decide, by decide⟩

/-- C7 (amended).  Reader thread protocol: `read_from_kanata` returns an
error when `read_line` reports end-of-file, when `read_line` itself fails
with an I/O error (propagated by `?`), when a line parses to a status
that is neither "Ok" nor "Error", and when the loop predicate observes
the fatal tripwire; lines with status "Ok" are logged at debug and the
loop continues; lines with status "Error" continue (logging their `msg`
at debug when present); a line that fails to parse is logged at debug and
skipped without error. -/
theorem read_from_kanata_protocol :
    (∀ rest : List ReadEvent,
      read_from_kanata (.eof :: rest) =
        .CustomError "Kanata Connection finished.") ∧
    (∀ (e : String) (rest : List ReadEvent),
      read_from_kanata (.ioErr e :: rest) = .IoError e) ∧
    (∀ (m : Option String) (rest : List ReadEvent),
      read_from_kanata (.line (some ⟨"Ok", m⟩) :: rest) =
          read_from_kanata rest ∧
        readStep (.line (some ⟨"Ok", m⟩)) = .ok (some .debug)) ∧
    (∀ (m : Option String) (rest : List ReadEvent),
      read_from_kanata (.line (some ⟨"Error", m⟩) :: rest) =
        read_from_kanata rest) ∧
    (∀ (st : String) (m : Option String) (rest : List ReadEvent),
      st ≠ "Ok" → st ≠ "Error" →
        read_from_kanata (.line (some ⟨st, m⟩) :: rest) =
          .KanataMessageError) ∧
    (∀ rest : List ReadEvent,
      read_from_kanata (.line none :: rest) = read_from_kanata rest ∧
        readStep (.line none) = .ok (some .debug)) ∧
    read_from_kanata [] =
      .CustomError "read_from_kanata: Caught the fatal error." := by
  refine ⟨fun rest => rfl, fun e rest => rfl, fun m rest => ⟨rfl, rfl⟩,
    ?_, ?_, fun rest => ⟨rfl, rfl⟩, rfl⟩
  · intro m rest
    simp [read_from_kanata, readStep]
  · intro st m rest hok herr
    simp [read_from_kanata, readStep, hok, herr]

/-- C7 witness: the amended protocol applied at concrete inputs,
including an unrecognized status. -/
theorem read_from_kanata_protocol_witness :
    read_from_kanata [.line (some ⟨"Warn", none⟩)] = .KanataMessageError ∧
    read_from_kanata [.line (some ⟨"Ok", none⟩), .eof] =
      .CustomError "Kanata Connection finished." := by
  constructor
  · exact read_from_kanata_protocol.2.2.2.2.1 "Warn" none []
      (by decide) (by decide)
  · exact (read_from_kanata_protocol.2.2.1 none [.eof]).1.trans
      (read_from_kanata_protocol.1 [])

/-- The retry-policy parameters `main` passes to backon's
`ExponentialBuilder` (src/bin/kanata_ime_observer.rs lines 142-147),
in milliseconds. -/
structure ExponentialBuilderConfig where
  min_delay_ms : Nat
  max_delay_ms : Nat
  max_times : Nat
deriving DecidableEq, Repr

/-- The configuration built by
`ExponentialBuilder::default().with_min_delay(100ms).with_max_delay(10s).with_max_times(10)`. -/
def mainBackoff : ExponentialBuilderConfig :=
  { min_delay_ms := 100, max_delay_ms := 10000, max_times := 10 }

/-- `TcpStream::connect_timeout(&addr, Duration::from_secs(30))`
(src/bin/kanata_ime_observer.rs line 134). -/
def connect_timeout_secs : Nat := 30

/-- `set_write_timeout(Some(Duration::from_secs(5)))`
(src/bin/kanata_ime_observer.rs line 136). -/
def write_timeout_secs : Nat := 5

/-- `SocketAddr::from(([127, 0, 0, 1], port))`
(src/bin/kanata_ime_observer.rs line 117): the loopback address the
connection is opened to. -/
def kanataAddrIp : Nat × Nat × Nat × Nat := (127, 0, 0, 1)

/-- The sleep backon performs before retry `i` (0-based): exponential from
`min_delay` with the default factor 2, capped at `max_delay`; at most
`max_times` retries, so at most `max_times` delays. -/
def backoffDelays (c : ExponentialBuilderConfig) : List Nat :=
  (List.range c.max_times).map
    (fun i => min (c.min_delay_ms * 2 ^ i) c.max_delay_ms)

/-- Embeds backon's `BlockingRetryable::retry(...).call()` control flow:
call the operation; on error, if a retry remains, sleep and call again;
when the retries are exhausted the last error is returned.  `attempt i`
is the outcome of the `i`-th call on the ambient network. -/
def retryCall {α : Type} (attempt : Nat → Except AppError α) :
    Nat → Nat → Except AppError α
  | i, 0 => attempt i
  | i, retries_left + 1 =>
    match attempt i with
    | .ok a => .ok a
    | .error _ => retryCall attempt (i + 1) retries_left

/-- Embeds the connect step of `main`
(src/bin/kanata_ime_observer.rs lines 133-152): the connect closure
retried under `mainBackoff`; `.call()?` makes a final error propagate out
of `main`. -/
def connectWithRetry {α : Type} (attempt : Nat → Except AppError α) :
    Except AppError α :=
  retryCall attempt 0 mainBackoff.max_times

/-- When every call fails, `retryCall` returns the error of the last
call, having used exactly `retries + 1` calls. -/
theorem retryCall_all_fail {α : Type} (f : Nat → AppError) :
    ∀ (retries i : Nat),
      retryCall (α := α) (fun j => .error (f j)) i retries =
        .error (f (i + retries)) := by
  intro retries
  induction retries with
  | zero => intro i; rfl
  | succ n ih =>
    intro i
    show retryCall _ (i + 1) n = _
    rw [ih (i + 1), (by omega : i + 1 + n = i + (n + 1))]

/-- C8.  Supervisor connection parameters: the connect step targets
`127.0.0.1:<port>` with a 30 s connect timeout and a 5 s write timeout,
under exponential backoff with minimum delay 100 ms, maximum delay 10 s
and at most 10 retries — the concrete sleep sequence being
100, 200, 400, 800, 1600, 3200, 6400 ms then 10 s thrice, every delay
within [100 ms, 10 s] — and when all 11 calls fail the last error
propagates (out of `main`, ending the process). -/
theorem main_connect_parameters :
    kanataAddrIp = (127, 0, 0, 1) ∧
    connect_timeout_secs = 30 ∧
    write_timeout_secs = 5 ∧
    mainBackoff =
      { min_delay_ms := 100, max_delay_ms := 10000, max_times := 10 } ∧
    backoffDelays mainBackoff =
      [100, 200, 400, 800, 1600, 3200, 6400, 10000, 10000, 10000] ∧
    (backoffDelays mainBackoff).length = mainBackoff.max_times ∧
    (∀ f : Nat → AppError,
      connectWithRetry (α := Unit) (fun j => .error (f j)) =
        .error (f mainBackoff.max_times)) := by
  refine ⟨rfl, rfl, rfl, rfl, by decide, by decide, ?_⟩
  intro f
  show retryCall _ 0 10 = _
  rw [retryCall_all_fail f 10 0]
  rfl

/-- Ambient Windows state seen by one `get_window_ime_status` call:
whether `GetForegroundWindow` and `ImmGetDefaultIMEWnd` return valid
handles, and per retry attempt the outcome of `SendMessageTimeoutW`
(`none` when the call's return value is 0, `some result` when it
succeeds with `result` written to the out-parameter). -/
structure WinEnv where
  foreground_valid : Bool
  ime_wnd_valid : Bool
  smto : Nat → Option Nat

/-- The retry loop of `get_window_ime_status`
(src/win_onoff.rs lines 98-121): up to `retries_left` further attempts
starting at attempt `i`; returns the first successful result and the
number of `retry_span` sleeps performed (one after each failed attempt,
the last included). -/
def smtoRetry (env : WinEnv) : Nat → Nat → Option Nat × Nat
  | _, 0 => (none, 0)
  | i, retries_left + 1 =>
    match env.smto i with
    | some result => (some result, 0)
    | none =>
      let (response, sleeps) := smtoRetry env (i + 1) retries_left
      (response, sleeps + 1)

/-- Embeds `get_window_ime_status` (src/win_onoff.rs lines 59-135).
Returns the `Result` together with the list of sleeps performed (each of
`retry_span` ms).  `send_message_timeout` parameterizes the ambient
`SendMessageTimeoutW` call, which `env.smto` abstracts. -/
def get_window_ime_status (retry_number : Nat) (send_message_timeout : Nat)
    (retry_span : Nat) (env : WinEnv) :
    Except AppError String × List Nat :=
  if !env.foreground_valid then
    (.error (.WinApiError "The result of GetForegroundWindow is invalid."), [])
  else if !env.ime_wnd_valid then
    (.error (.WinApiError "The result of ImmGetDefaultIMEWnd is invalid"), [])
  else
    let (response, sleeps) := smtoRetry env 0 retry_number
    (match response with
     | none => .error (.WinApiError "Could not SendMessageTimeoutW.")
     | some result =>
       .ok (if result ≠ 0 then "ime-on" else "ime-off"),
     List.replicate sleeps retry_span)

/-- Embeds the body of the windows-onoff query-worker loop
(src/win_onoff.rs lines 320-331): `Ok` forwards the token to the inner
channel, `Err` is logged at error level and the loop continues. -/
def winOnOffWorkerStep (query_result : Except AppError String) :
    WorkerEffect :=
  match query_result with
  | .ok response => .sendInner response
  | .error e => .logNonFatal e

/-- The `Result` component of `get_window_ime_status`, by cases. -/
theorem get_window_ime_status_fst (n t s : Nat) (env : WinEnv) :
    (get_window_ime_status n t s env).1 =
      (if !env.foreground_valid then
        .error (.WinApiError "The result of GetForegroundWindow is invalid.")
      else if !env.ime_wnd_valid then
        .error (.WinApiError "The result of ImmGetDefaultIMEWnd is invalid")
      else
        match (smtoRetry env 0 n).1 with
        | none => .error (.WinApiError "Could not SendMessageTimeoutW.")
        | some result =>
          .ok (if result ≠ 0 then "ime-on" else "ime-off")) := by
  unfold get_window_ime_status
  by_cases hfg : (!env.foreground_valid) = true
  · rw [if_pos hfg, if_pos hfg]
  · rw [if_neg hfg, if_neg hfg]
    by_cases hime : (!env.ime_wnd_valid) = true
    · rw [if_pos hime, if_pos hime]
    · rw [if_neg hime, if_neg hime]

/-- When every attempt fails, the retry loop reports no response and one
sleep per attempt. -/
theorem smtoRetry_all_fail (env : WinEnv) (henv : ∀ i, env.smto i = none) :
    ∀ (n i : Nat), smtoRetry env i n = (none, n) := by
  intro n
  induction n with
  | zero => intro i; rfl
  | succ m ih =>
    intro i
    show (match env.smto i with
      | some result => (some result, 0)
      | none =>
        let (response, sleeps) := smtoRetry env (i + 1) m
        (response, sleeps + 1)) = _
    rw [henv i, ih (i + 1)]

/-- C9.  windows-onoff status query: with valid foreground and IME
windows, if all `retry_number` `SendMessageTimeoutW` attempts fail the
query returns a `WinApiError` after sleeping `retry_span` ms
`retry_number` times, and the worker logs such an error non-fatally; if
the first attempt succeeds with flag `v` the query immediately returns
"ime-on" when `v ≠ 0` and "ime-off" when `v = 0`; and no token other
than "ime-on" or "ime-off" is ever produced. -/
theorem get_window_ime_status_contract :
    (∀ (retry_number send_message_timeout retry_span : Nat) (env : WinEnv),
      env.foreground_valid = true → env.ime_wnd_valid = true →
      (∀ i, env.smto i = none) →
        get_window_ime_status retry_number send_message_timeout retry_span
            env =
          (.error (.WinApiError "Could not SendMessageTimeoutW."),
           List.replicate retry_number retry_span)) ∧
    (∀ (retry_number send_message_timeout retry_span v : Nat) (env : WinEnv),
      env.foreground_valid = true → env.ime_wnd_valid = true →
      env.smto 0 = some v → 0 < retry_number →
        get_window_ime_status retry_number send_message_timeout retry_span
            env =
          (.ok (if v ≠ 0 then "ime-on" else "ime-off"), [])) ∧
    (∀ (retry_number send_message_timeout retry_span : Nat) (env : WinEnv)
        (out : String),
      (get_window_ime_status retry_number send_message_timeout retry_span
          env).1 = .ok out →
        out = "ime-on" ∨ out = "ime-off") ∧
    (∀ e : AppError, winOnOffWorkerStep (.error e) = .logNonFatal e) := by
  refine ⟨?_, ?_, ?_, fun e => rfl⟩
  · intro n t s env hfg hime henv
    simp only [get_window_ime_status, hfg, hime, Bool.not_true,
      Bool.false_eq_true, if_false, smtoRetry_all_fail env henv n 0]
  · intro n t s v env hfg hime hsmto hn
    obtain ⟨m, rfl⟩ : ∃ m, n = m + 1 := ⟨n - 1, by omega⟩
    simp only [get_window_ime_status, hfg, hime, Bool.not_true,
      Bool.false_eq_true, if_false, smtoRetry, hsmto]
    rfl
  · intro n t s env out h
    rw [get_window_ime_status_fst] at h
    split at h
    · cases h
    · split at h
      · cases h
      · split at h
        · cases h
        · rename_i v heq
          by_cases hv : v ≠ 0
          · rw [if_pos hv] at h
            exact Or.inl (Except.ok.inj h).symm
          · rw [if_neg hv] at h
            exact Or.inr (Except.ok.inj h).symm

/-- C9 witness: the contract applied to a concrete environment that
always fails and to one that succeeds immediately with flag 5. -/
theorem get_window_ime_status_contract_witness :
    get_window_ime_status 3 100 100
        { foreground_valid := true, ime_wnd_valid := true,
          smto := fun _ => none } =
      (.error (.WinApiError "Could not SendMessageTimeoutW."),
       [100, 100, 100]) ∧
    get_window_ime_status 3 100 100
        { foreground_valid := true, ime_wnd_valid := true,
          smto := fun _ => some 5 } =
      (.ok "ime-on", []) ∧
    winOnOffWorkerStep
        (.error (.WinApiError "Could not SendMessageTimeoutW.")) =
      .logNonFatal (.WinApiError "Could not SendMessageTimeoutW.") := by
  refine ⟨?_, ?_, ?_⟩
  · have h := get_window_ime_status_contract.1 3 100 100
      { foreground_valid := true, ime_wnd_valid := true,
        smto := fun _ => none } rfl rfl (fun i => rfl)
    simpa [List.replicate] using h
  · have h := get_window_ime_status_contract.2.1 3 100 100 5
      { foreground_valid := true, ime_wnd_valid := true,
        smto := fun _ => some 5 } rfl rfl rfl (by decide)
    simpa using h
  · exact get_window_ime_status_contract.2.2.2
      (.WinApiError "Could not SendMessageTimeoutW.")

/-- Embeds `HashMap::insert` on the association-list model: returns the
previous value for the key (as `HashMap::insert` does) together with the
updated map. -/
def assocInsert {α : Type} : List (String × α) → String → α →
    Option α × List (String × α)
  | [], key, v => (none, [(key, v)])
  | (k, w) :: rest, key, v =>
    if k = key then (some w, (k, v) :: rest)
    else ((assocInsert rest key v).1, (k, w) :: (assocInsert rest key v).2)

/-- Embeds the `-i` (`--ime`) handling of the `config` subcommand in
`parse_args` (src/args.rs lines 211-217) over the IME names in
command-line order: each name is inserted with value
`config_map.len()`, and a name whose insertion returns a previous value
aborts with `ArgError("Duplicate IME name.")`. -/
def buildConfigMap : List String → List (String × Nat) →
    Except AppError (List (String × Nat))
  | [], config_map => .ok config_map
  | ime_name :: rest, config_map =>
    if (assocInsert config_map ime_name config_map.length).1.isSome then
      .error (.ArgError "Duplicate IME name.")
    else
      buildConfigMap rest (assocInsert config_map ime_name config_map.length).2

/-- Embeds the final assembly of the `layer` subcommand
(src/args.rs lines 307-312): the collected (IME name, layer name) pairs
are inserted in order; a repeated IME name aborts with
`ArgError("Duplicate IME name.")`. -/
def buildLayerMap : List (String × String) → List (String × String) →
    Except AppError (List (String × String))
  | [], layer_map => .ok layer_map
  | (ime_name, layer_name) :: rest, layer_map =>
    if (assocInsert layer_map ime_name layer_name).1.isSome then
      .error (.ArgError "Duplicate IME name.")
    else
      buildLayerMap rest (assocInsert layer_map ime_name layer_name).2

/-- Embeds the `layer` branch of `parse_args` (src/args.rs lines
302-320): the count check between IME names and layer names, then the
map construction over the zipped pairs. -/
def layerCommand (ime_names layer_names : List String) :
    Except AppError Command :=
  if ime_names.length ≠ layer_names.length then
    .error (.ArgError
      "'kanata_ime_observer layer' needs the same number of IME names and layer names.")
  else
    (buildLayerMap (ime_names.zip layer_names) []).map Command.Layer

/-- Lookup across a concatenation: the left map shadows the right. -/
theorem mapGet_append {α : Type} (a b : List (String × α)) (key : String) :
    mapGet (a ++ b) key =
      (match mapGet a key with
       | some v => some v
       | none => mapGet b key) := by
  induction a with
  | nil => rfl
  | cons p rest ih =>
    obtain ⟨k, v⟩ := p
    by_cases hk : k = key
    · simp [mapGet, hk]
    · simp [mapGet, hk, ih]

/-- The previous value `assocInsert` reports is the lookup of the key. -/
theorem assocInsert_fst {α : Type} (m : List (String × α)) (key : String)
    (v : α) : (assocInsert m key v).1 = mapGet m key := by
  induction m with
  | nil => rfl
  | cons p rest ih =>
    obtain ⟨k, w⟩ := p
    by_cases hk : k = key
    · simp [assocInsert, mapGet, hk]
    · simp [assocInsert, mapGet, hk, ih]

/-- Inserting a fresh key appends it and reports no previous value. -/
theorem assocInsert_fresh {α : Type} (m : List (String × α)) (key : String)
    (v : α) (h : mapGet m key = none) :
    assocInsert m key v = (none, m ++ [(key, v)]) := by
  induction m with
  | nil => rfl
  | cons p rest ih =>
    obtain ⟨k, w⟩ := p
    by_cases hk : k = key
    · simp only [mapGet, if_pos hk] at h
      cases h
    · simp only [mapGet, if_neg hk] at h
      simp [assocInsert, hk, ih h]

/-- On distinct names all fresh for the accumulator, the config builder
succeeds and appends the names paired with consecutive indices starting
at the accumulator's size. -/
theorem buildConfigMap_ok :
    ∀ (names : List String) (m0 : List (String × Nat)),
      names.Nodup → (∀ x ∈ names, mapGet m0 x = none) →
      buildConfigMap names m0 =
        .ok (m0 ++ names.zip (List.range' m0.length names.length)) := by
  intro names
  induction names with
  | nil =>
    intro m0 _ _
    simp [buildConfigMap]
  | cons n ns ih =>
    intro m0 hnd hfresh
    rw [List.nodup_cons] at hnd
    have hn : mapGet m0 n = none := hfresh n (List.mem_cons_self n ns)
    have hins := assocInsert_fresh m0 n m0.length hn
    have fresh2 : ∀ x ∈ ns, mapGet (m0 ++ [(n, m0.length)]) x = none := by
      intro x hx
      rw [mapGet_append, hfresh x (List.mem_cons_of_mem n hx)]
      have hxn : ¬n = x := fun he => hnd.1 (he ▸ hx)
      simp [mapGet, hxn]
    simp only [buildConfigMap, hins, Option.isSome_none, Bool.false_eq_true,
      if_false, ih _ hnd.2 fresh2]
    simp [List.range']

/-- Names zipped with `range' b` look up positionally. -/
theorem mapGet_zip_range' :
    ∀ (names : List String) (b k : Nat) (h : k < names.length),
      names.Nodup →
      mapGet (names.zip (List.range' b names.length)) (names.get ⟨k, h⟩) =
        some (b + k) := by
  intro names
  induction names with
  | nil =>
    intro b k h
    exact absurd h (Nat.not_lt_zero k)
  | cons n ns ih =>
    intro b k h hnd
    rw [List.nodup_cons] at hnd
    cases k with
    | zero => simp [List.range', List.zip_cons_cons, mapGet]
    | succ m =>
      have hm : m < ns.length := by
        simpa [Nat.succ_lt_succ_iff] using h
      have hget : (n :: ns).get ⟨m + 1, h⟩ = ns.get ⟨m, hm⟩ := rfl
      have hne : ¬n = ns.get ⟨m, hm⟩ :=
        fun he => hnd.1 (he ▸ List.get_mem ns m hm)
      rw [hget]
      show mapGet ((n, b) :: ns.zip (List.range' (b + 1) ns.length))
          (ns.get ⟨m, hm⟩) = some (b + (m + 1))
      rw [mapGet, if_neg hne, ih (b + 1) m hm hnd.2,
        (by omega : b + 1 + m = b + (m + 1))]

/-- A name already present in the accumulator forces the duplicate
error. -/
theorem buildConfigMap_present :
    ∀ (names : List String) (m0 : List (String × Nat)) (x : String),
      x ∈ names → mapGet m0 x ≠ none →
      buildConfigMap names m0 = .error (.ArgError "Duplicate IME name.") := by
  intro names
  induction names with
  | nil =>
    intro m0 x hx
    cases hx
  | cons n ns ih =>
    intro m0 x hx hpresent
    by_cases hn : (mapGet m0 n).isSome
    · simp [buildConfigMap, assocInsert_fst, hn]
    · have hnone : mapGet m0 n = none := by
        cases hmn : mapGet m0 n with
        | none => rfl
        | some v => rw [hmn] at hn; cases hn rfl
      have hins := assocInsert_fresh m0 n m0.length hnone
      simp only [buildConfigMap, hins, Option.isSome_none,
        Bool.false_eq_true, if_false]
      have hxn : ¬x = n := fun he => hpresent (he ▸ hnone)
      have hx2 : x ∈ ns := by
        cases List.mem_cons.mp hx with
        | inl h => exact absurd h hxn
        | inr h => exact h
      apply ih _ x hx2
      rw [mapGet_append]
      cases hmx : mapGet m0 x with
      | none => exact absurd hmx hpresent
      | some v => simp

/-- A repeated name among the `-i` arguments forces the duplicate
error. -/
theorem buildConfigMap_dup :
    ∀ (names : List String) (m0 : List (String × Nat)), ¬names.Nodup →
      buildConfigMap names m0 = .error (.ArgError "Duplicate IME name.") := by
  intro names
  induction names with
  | nil =>
    intro m0 h
    exact absurd List.nodup_nil h
  | cons n ns ih =>
    intro m0 h
    by_cases hn : (mapGet m0 n).isSome
    · simp [buildConfigMap, assocInsert_fst, hn]
    · have hnone : mapGet m0 n = none := by
        cases hmn : mapGet m0 n with
        | none => rfl
        | some v => rw [hmn] at hn; cases hn rfl
      have hins := assocInsert_fresh m0 n m0.length hnone
      simp only [buildConfigMap, hins, Option.isSome_none,
        Bool.false_eq_true, if_false]
      by_cases hmem : n ∈ ns
      · apply buildConfigMap_present ns _ n hmem
        rw [mapGet_append, hnone]
        simp [mapGet]
      · have hns : ¬ns.Nodup := by
          intro hnd
          exact h (List.nodup_cons.mpr ⟨hmem, hnd⟩)
        exact ih _ hns

/-- Layer-map analogue of `buildConfigMap_present`. -/
theorem buildLayerMap_present :
    ∀ (pairs : List (String × String)) (m0 : List (String × String))
      (x : String),
      x ∈ pairs.map Prod.fst → mapGet m0 x ≠ none →
      buildLayerMap pairs m0 = .error (.ArgError "Duplicate IME name.") := by
  intro pairs
  induction pairs with
  | nil =>
    intro m0 x hx
    cases hx
  | cons p rest ih =>
    obtain ⟨n, l⟩ := p
    intro m0 x hx hpresent
    by_cases hn : (mapGet m0 n).isSome
    · simp [buildLayerMap, assocInsert_fst, hn]
    · have hnone : mapGet m0 n = none := by
        cases hmn : mapGet m0 n with
        | none => rfl
        | some v => rw [hmn] at hn; cases hn rfl
      have hins := assocInsert_fresh m0 n l hnone
      simp only [buildLayerMap, hins, Option.isSome_none,
        Bool.false_eq_true, if_false]
      have hxn : ¬x = n := fun he => hpresent (he ▸ hnone)
      have hx2 : x ∈ rest.map Prod.fst := by
        cases List.mem_cons.mp hx with
        | inl h => exact absurd h hxn
        | inr h => exact h
      apply ih _ x hx2
      rw [mapGet_append]
      cases hmx : mapGet m0 x with
      | none => exact absurd hmx hpresent
      | some v => simp

/-- Layer-map analogue of `buildConfigMap_dup`. -/
theorem buildLayerMap_dup :
    ∀ (pairs : List (String × String)) (m0 : List (String × String)),
      ¬(pairs.map Prod.fst).Nodup →
      buildLayerMap pairs m0 = .error (.ArgError "Duplicate IME name.") := by
  intro pairs
  induction pairs with
  | nil =>
    intro m0 h
    exact absurd List.nodup_nil h
  | cons p rest ih =>
    obtain ⟨n, l⟩ := p
    intro m0 h
    by_cases hn : (mapGet m0 n).isSome
    · simp [buildLayerMap, assocInsert_fst, hn]
    · have hnone : mapGet m0 n = none := by
        cases hmn : mapGet m0 n with
        | none => rfl
        | some v => rw [hmn] at hn; cases hn rfl
      have hins := assocInsert_fresh m0 n l hnone
      simp only [buildLayerMap, hins, Option.isSome_none,
        Bool.false_eq_true, if_false]
      by_cases hmem : n ∈ rest.map Prod.fst
      · apply buildLayerMap_present rest _ n hmem
        rw [mapGet_append, hnone]
        simp [mapGet]
      · have hns : ¬(rest.map Prod.fst).Nodup := by
          intro hnd
          exact h (List.nodup_cons.mpr ⟨hmem, hnd⟩)
        exact ih _ hns

/-- C10.  Config-map index assignment: on distinct IME names the config
subcommand maps the names positionally — the whole map equals the names
zipped with 0, 1, …, n-1 in argument order, so the k-th name (0-based)
looks up to index k; a repeated IME name makes the config subcommand
return `ArgError("Duplicate IME name.")`, and likewise the layer
subcommand when the IME and layer name counts agree. -/
theorem parse_args_config_indices :
    (∀ names : List String, names.Nodup →
      buildConfigMap names [] =
        .ok (names.zip (List.range' 0 names.length))) ∧
    (∀ (names : List String), names.Nodup →
      ∀ (k : Nat) (h : k < names.length),
        mapGet (names.zip (List.range' 0 names.length))
          (names.get ⟨k, h⟩) = some k) ∧
    (∀ names : List String, ¬names.Nodup →
      buildConfigMap names [] = .error (.ArgError "Duplicate IME name.")) ∧
    (∀ ime_names layer_names : List String,
      ime_names.length = layer_names.length → ¬ime_names.Nodup →
      layerCommand ime_names layer_names =
        .error (.ArgError "Duplicate IME name.")) := by
  refine ⟨?_, ?_, ?_, ?_⟩
  · intro names hnd
    simpa using buildConfigMap_ok names [] hnd (fun x _ => rfl)
  · intro names hnd k h
    simpa using mapGet_zip_range' names 0 k h hnd
  · intro names hdup
    exact buildConfigMap_dup names [] hdup
  · intro ime_names layer_names hlen hdup
    rw [layerCommand, if_neg (by omega)]
    have hfst : (ime_names.zip layer_names).map Prod.fst = ime_names :=
      List.map_fst_zip ime_names layer_names (le_of_eq hlen)
    rw [buildLayerMap_dup (ime_names.zip layer_names) []
      (by rw [hfst]; exact hdup)]
    rfl

/-- C10 witness: the index assignment and both duplicate errors at
concrete inputs. -/
theorem parse_args_config_indices_witness :
    buildConfigMap ["mozc-jp", "xkb:us::eng"] [] =
      .ok [("mozc-jp", 0), ("xkb:us::eng", 1)] ∧
    mapGet [("mozc-jp", 0), ("xkb:us::eng", 1)] "xkb:us::eng" = some 1 ∧
    buildConfigMap ["mozc-jp", "mozc-jp"] [] =
      .error (.ArgError "Duplicate IME name.") ∧
    layerCommand ["mozc-jp", "mozc-jp"] ["ja", "en"] =
      .error (.ArgError "Duplicate IME name.") := by
  refine ⟨?_, ?_, ?_, ?_⟩
  · simpa [List.range'] using
      parse_args_config_indices.1 ["mozc-jp", "xkb:us::eng"] (by decide)
  · simpa [List.range'] using
      parse_args_config_indices.2.1 ["mozc-jp", "xkb:us::eng"] (by decide)
        1 (by decide)
  · exact parse_args_config_indices.2.2.1 ["mozc-jp", "mozc-jp"] (by decide)
  · exact parse_args_config_indices.2.2.2 ["mozc-jp", "mozc-jp"]
      ["ja", "en"] (by decide) (by decide)

end KanataImeObserver
